import Mathlib

/-!
Verification development for the archinstall resilient-orchestration core.

The definitions below are shallow embeddings of the Python source:
 - `src/archinstall/lib/pacman/__init__.py` (class `Pacman`): the lock wait,
   the retry loops, database sync, batching and plugin hooks;
 - `src/archinstall/lib/zfs.py` (class `ZFSManager`): the provisioning
   pipeline and its steps.

External effects (spawned commands, file reads, the wall clock, interactive
answers) are modeled as explicit oracle inputs; an oracle of type
`Except String _` is the outcome of one external invocation (`.error e`
standing for a raised exception with message `e`).  Functions that the
source iterates an unbounded number of times take an explicit fuel
argument so that every definition is executable and kernel-reducible.
-/

/-- A naive substring test on character lists (structural, kernel-reducible). -/
def containsSub (pat : List Char) : List Char → Bool
  | [] => pat.isEmpty
  | c :: t => List.isPrefixOf pat (c :: t) || containsSub pat t

/-- Transient-error classifier of `Pacman.run` (lines 63): the error text,
lowercased, contains "failed to synchronize" or "failed retrieving file". -/
def isTransientMsg (e : String) : Bool :=
  containsSub ("failed to synchronize".data) (e.data.map Char.toLower) ||
  containsSub ("failed retrieving file".data) (e.data.map Char.toLower)

/-- Trace of one execution of the retry loop in `Pacman.run` (lines 48-69):
the final outcome, how many times the wrapped command was invoked, the
backoff delays slept (seconds), and how many corrective `pacman -Syy`
resyncs were attempted. -/
structure RunTrace where
  result : Except String Unit
  invocations : Nat
  delays : List Nat
  resyncs : Nat

/-- The retry loop of `Pacman.run` (lines 48-69).  `op k` is the outcome of
the `k`-th `SysCommand` invocation; `remaining` is the number of loop
iterations left (`max_retries - attempt`) and `d` the current local
`retry_delay`.  On failure with iterations remaining it sleeps `d`, doubles
the delay, attempts a corrective resync only when `isTransientMsg` accepts
the error, and retries; on the last iteration it re-raises.  The
`remaining = 0` case is unreachable for `max_retries >= 1`. -/
def pacmanRunRetry (op : Nat → Except String Unit) : Nat → Nat → Nat → RunTrace
  | _, 0, _ => ⟨.error "", 0, [], 0⟩
  | attempt, remaining + 1, d =>
    match op attempt with
    | .ok _ => ⟨.ok (), 1, [], 0⟩
    | .error e =>
      if remaining = 0 then ⟨.error e, 1, [], 0⟩
      else
        let rest := pacmanRunRetry op (attempt + 1) remaining (d * 2)
        ⟨rest.result, rest.invocations + 1, d :: rest.delays,
          (if isTransientMsg e then 1 else 0) + rest.resyncs⟩

/-- `Pacman.run`'s retry loop at its hardcoded parameters: `max_retries = 3`,
initial `retry_delay = 2` (lines 49-50). -/
def pacmanRun (op : Nat → Except String Unit) : RunTrace :=
  pacmanRunRetry op 0 3 2

/-- Mutable state of a `Pacman` instance (`Pacman.__init__`, lines 20-26):
`synced` guards the one-time database sync, `silent` disables the
interactive retry prompt, `retryDelay` is `self.retry_delay`. -/
structure PacmanState where
  synced : Bool
  silent : Bool
  retryDelay : Nat

/-- A fresh `Pacman` instance: `synced = False`, `silent = False`,
`retry_delay = 5` (`max_retries = 3` and `batch_size = 5` are the constants
below). -/
def pacmanInit : PacmanState := ⟨false, false, 5⟩

/-- `self.max_retries` (line 24). -/
def pacmanMaxRetries : Nat := 3

/-- `self.batch_size` (line 26). -/
def pacmanBatchSize : Nat := 5

/-- The corrective `self.sync()` attempt inside `_install_package_batch`
(lines 115-118): a no-op when already synced; otherwise one sync attempt
whose success marks the instance synced and whose failure is warned and
swallowed.  `syncOp` is the outcome of the underlying `pacman -Syy`. -/
def correctiveSync (syncOp : Except String Unit) (st : PacmanState) : PacmanState :=
  if st.synced then st
  else
    match syncOp with
    | .ok _ => { st with synced := true }
    | .error _ => st

/-- Trace of one `Pacman._install_package_batch` call: outcome, the instance
state it leaves behind, the backoff delays slept, and the number of
`pacstrap` invocations. -/
structure BatchTrace where
  result : Except String Unit
  state : PacmanState
  delays : List Nat
  invocations : Nat

/-- The retry loop of `Pacman._install_package_batch` (lines 94-120).
`op k` is the outcome of the `k`-th `pacstrap` attempt (through `self.ask`),
`syncOp k` the outcome of the corrective resync after attempt `k`.  On
failure with iterations remaining it sleeps `self.retry_delay`, doubles it
(`self.retry_delay *= 2`, line 112 - mutating the instance), attempts
`self.sync()` unconditionally, and retries; on the last iteration it
re-raises. -/
def installBatchLoop (op : Nat → Except String Unit) (syncOp : Nat → Except String Unit) :
    Nat → Nat → PacmanState → BatchTrace
  | _, 0, st => ⟨.error "", st, [], 0⟩
  | attempt, remaining + 1, st =>
    match op attempt with
    | .ok _ => ⟨.ok (), st, [], 1⟩
    | .error e =>
      if remaining = 0 then ⟨.error e, st, [], 1⟩
      else
        let st1 := { st with retryDelay := st.retryDelay * 2 }
        let st2 := correctiveSync (syncOp attempt) st1
        let rest := installBatchLoop op syncOp (attempt + 1) remaining st2
        ⟨rest.result, rest.state, st.retryDelay :: rest.delays, rest.invocations + 1⟩

/-- One `_install_package_batch` call at the instance's `max_retries = 3`. -/
def installBatch (op : Nat → Except String Unit) (syncOp : Nat → Except String Unit)
    (st : PacmanState) : BatchTrace :=
  installBatchLoop op syncOp 0 pacmanMaxRetries st

/-- The geometric backoff sequence: `n` delays starting at `d`, doubling. -/
def geomDelays (d : Nat) : Nat → List Nat
  | 0 => []
  | n + 1 => d :: geomDelays (d * 2) n

/-- The retry-and-prompt loop of `Pacman.ask` (lines 71-80): run `func`; on
success stop; on failure re-run only when not silent and the operator
consents (`userRetry k`), otherwise raise `RequirementError` with the bail
message.  The real loop is unbounded, so it takes fuel; running out of fuel
is an artifact mapped to a bare bail error. -/
def askLoop (func : Nat → Except String Unit) (userRetry : Nat → Bool)
    (silent : Bool) (bailMsg : String) : Nat → Nat → Except String Unit × Nat
  | 0, _ => (.error bailMsg, 0)
  | fuel + 1, k =>
    match func k with
    | .ok _ => (.ok (), 1)
    | .error e =>
      if silent = false && userRetry k then
        let r := askLoop func userRetry silent bailMsg fuel (k + 1)
        (r.1, r.2 + 1)
      else (.error (bailMsg ++ ": " ++ e), 1)

/-- `Pacman.sync` (lines 82-92): return immediately when `self.synced`;
otherwise run `pacman -Syy` through `ask` and set `self.synced = True` on
success.  Returns the outcome, the new instance state, and the number of
external sync invocations performed (each being one `self.run('-Syy')`). -/
def syncFull (c : Nat → Except String Unit) (u : Nat → Bool) (fuel : Nat)
    (st : PacmanState) : Except String Unit × PacmanState × Nat :=
  if st.synced then (.ok (), st, 0)
  else
    let r := askLoop c u st.silent "Could not sync mirrors" fuel 0
    match r.1 with
    | .ok _ => (.ok (), { st with synced := true }, r.2)
    | .error e => (.error e, st, r.2)

/-- A sequence of `sync` calls on one instance, threading the state and
summing the external sync invocations.  Each list entry carries that call's
oracles (sync outcomes, operator answers, fuel). -/
def syncCalls : List ((Nat → Except String Unit) × (Nat → Bool) × Nat) →
    PacmanState → PacmanState × Nat
  | [], st => (st, 0)
  | c :: rest, st =>
    let r := syncFull c.1 c.2.1 c.2.2 st
    let f := syncCalls rest r.2.1
    (f.1, r.2.2 + f.2)

/-- The chunking of `Pacman.strap`'s batch loop (lines 138-139):
`packages[i : i + batch_size]` for `i in range(0, len(packages), batch_size)`.
The fuel argument bounds the iteration count; `l.length` iterations always
suffice when `bs >= 1`, so `chunks` below is exactly the loop's sequence of
batches. -/
def chunksFuel (bs : Nat) : Nat → List α → List (List α)
  | 0, _ => []
  | _, [] => []
  | fuel + 1, x :: xs => (x :: xs).take bs :: chunksFuel bs fuel ((x :: xs).drop bs)

/-- The sequence of batches `Pacman.strap` iterates over. -/
def chunks (bs : Nat) (l : List α) : List (List α) :=
  chunksFuel bs l.length l

/-- The batch loop of `Pacman.strap` (lines 138-140): run each batch in
order through `_install_package_batch` (abstracted as `runB`); the first
raised failure propagates and stops the loop.  Also returns the list of
batches that were actually attempted. -/
def strapBatches (runB : List String → Except String Unit) :
    List (List String) → Except String Unit × List (List String)
  | [] => (.ok (), [])
  | b :: rest =>
    match runB b with
    | .ok _ =>
      let r := strapBatches runB rest
      (r.1, b :: r.2)
    | .error e => (.error e, [b])

/-- One step of the plugin fold in `Pacman.strap` (lines 130-133): the
hook's return value replaces the package list only when it is truthy, i.e.
neither `None` nor empty. -/
def hookStep (acc : List String) (h : List String → Option (List String)) : List String :=
  match h acc with
  | some r => if r.isEmpty then acc else r
  | none => acc

/-- The plugin fold of `Pacman.strap` (lines 130-133): every registered
`on_pacstrap` hook is offered the package list in registration order. -/
def applyHooks (hooks : List (List String → Option (List String))) (l : List String) :
    List String :=
  hooks.foldl hookStep l

/-- `Pacman.strap` after its initial `self.sync()` (modeled by `syncFull`):
apply the hooks, chunk at `batch_size`, run the batches in order. -/
def strap (hooks : List (List String → Option (List String)))
    (runB : List String → Except String Unit) (packages : List String) :
    Except String Unit × List (List String) :=
  strapBatches runB (chunks pacmanBatchSize (applyHooks hooks packages))

/-- Result of the lock wait at the top of `Pacman.run` (lines 35-46):
either the lock was observed absent at poll `n` and control proceeds, or
the 10-minute budget was exceeded and the process exits with status 1
after logging a fixed message.  `spin` is the fuel-exhaustion artifact of
the embedding (the real loop just keeps polling). -/
inductive LockWaitResult where
  | ok (polls : Nat)
  | fatalExit (code : Nat)
  | spin
deriving DecidableEq

/-- The polling loop of `Pacman.run` (lines 40-46).  `lockExists n` is
whether `/var/lib/pacman/db.lck` exists at the `n`-th check; `clock n` is
`time.time()` (in milliseconds) at the `n`-th reading, `clock 0` being the
`started` assignment and `clock (n+1)` the reading after the `n`-th
0.25-second sleep.  Each iteration: if the lock exists, sleep, then exit
fatally when elapsed time exceeds 10 minutes (600000 ms), else poll again. -/
def lockWaitGo (lockExists : Nat → Bool) (clock : Nat → Nat) (started : Nat) :
    Nat → Nat → LockWaitResult
  | 0, _ => .spin
  | fuel + 1, n =>
    if lockExists n then
      if clock (n + 1) > started + 600000 then .fatalExit 1
      else lockWaitGo lockExists clock started fuel (n + 1)
    else .ok n

/-- The whole lock wait of `Pacman.run`: `started = time.time()` then poll. -/
def lockWait (lockExists : Nat → Bool) (clock : Nat → Nat) (fuel : Nat) : LockWaitResult :=
  lockWaitGo lockExists clock (clock 0) fuel 0

/-- A step of the `ZFSManager.setup_zfs_system` pipeline, abstracted to its
name and whether its operation returns `True` (by `zfs_ops_never_raise`
below, every step function returns a boolean and never raises). -/
structure ZfsStep where
  name : String
  ok : Bool

/-- The step loop of `ZFSManager.setup_zfs_system` (lines 346-352): run the
steps in order; on the first step returning `False`, log an error naming it
and return `False` immediately.  The result is the list of step names that
were actually invoked together with the name recorded in the failure log
(`none` when every step succeeded, in which case the method returns
`True`). -/
def runSteps : List ZfsStep → List String × Option String
  | [] => ([], none)
  | s :: rest =>
    if s.ok then
      let r := runSteps rest
      (s.name :: r.1, r.2)
    else ([s.name], some s.name)

/-- The result of a `SysCommand` as inspected by `create_pool`
(`result.exit_code`). -/
structure CmdResult where
  exitCode : Int

/-- Configuration read by `ZFSManager.__init__` from the storage
dictionary (lines 19-25). -/
structure ZfsConfig where
  poolName : String
  compression : String
  bootEnvironment : String
  enableEncryption : Bool
  encryptionPassword : String

/-- The defaults used when the storage keys are absent. -/
def zfsDefaultConfig : ZfsConfig := ⟨"rpool", "lz4", "default", false, ""⟩

/-- The `try: ... except Exception: return False` wrapper every `ZFSManager`
operation puts around its body: a raised exception is logged and converted
into the normal return value `False`. -/
def tryExceptBool (body : Except String Bool) : Except String Bool :=
  match body with
  | .ok b => .ok b
  | .error _ => .ok false

/-- `ZFSManager.create_pool` (lines 27-52): one `zpool create` invocation;
a non-zero exit code yields `False`, an exception is caught to `False`. -/
def create_pool (zpoolCreate : Except String CmdResult) : Except String Bool :=
  tryExceptBool (do
    let r ← zpoolCreate
    if r.exitCode != 0 then pure false else pure true)

/-- `ZFSManager.create_datasets` (lines 54-82): six `zfs create` commands in
sequence (ROOT, the boot environment, home, var, var/lib, var/log); any
exception is caught to `False`. -/
def create_datasets (cmd : Nat → Except String Unit) : Except String Bool :=
  tryExceptBool (do
    let _ ← cmd 0
    let _ ← cmd 1
    let _ ← cmd 2
    let _ ← cmd 3
    let _ ← cmd 4
    let _ ← cmd 5
    pure true)

/-- `ZFSManager.setup_encryption` (lines 84-111): returns `True` outright
when encryption is disabled or no password is set; otherwise one
`SysCommandWorker` run, exceptions caught to `False`. -/
def setup_encryption (cfg : ZfsConfig) (worker : Except String Unit) : Except String Bool :=
  if cfg.enableEncryption = false || cfg.encryptionPassword = "" then .ok true
  else
    tryExceptBool (do
      let _ ← worker
      pure true)

/-- `ZFSManager.create_swap` (lines 113-139): three commands (swap dataset,
swap volume, mkswap); exceptions caught to `False`. -/
def create_swap (cmd : Nat → Except String Unit) : Except String Bool :=
  tryExceptBool (do
    let _ ← cmd 0
    let _ ← cmd 1
    let _ ← cmd 2
    pure true)

/-- `ZFSManager.mount_datasets` (lines 141-160): export, import, mount root,
mount all; exceptions caught to `False`. -/
def mount_datasets (cmd : Nat → Except String Unit) : Except String Bool :=
  tryExceptBool (do
    let _ ← cmd 0
    let _ ← cmd 1
    let _ ← cmd 2
    let _ ← cmd 3
    pure true)

/-- `ZFSManager.configure_boot` (lines 162-189): set bootfs, mkdir of the
cache directory, set cachefile, enable four services; exceptions caught to
`False`. -/
def configure_boot (cmd : Nat → Except String Unit) : Except String Bool :=
  tryExceptBool (do
    let _ ← cmd 0
    let _ ← cmd 1
    let _ ← cmd 2
    let _ ← cmd 3
    let _ ← cmd 4
    let _ ← cmd 5
    let _ ← cmd 6
    pure true)

/-- The `for attempt in range(3)` retry loops inside
`ZFSManager.install_zfs_packages` (per-package installs, lines 237-251, and
the initramfs rebuild, lines 272-284): `true` iff some attempt in
`[a, a + n)` succeeds; exhaustion makes the enclosing function return
`False`. -/
def retryLoop (op : Nat → Except String Unit) : Nat → Nat → Bool
  | _, 0 => false
  | a, n + 1 =>
    match op a with
    | .ok _ => true
    | .error _ => retryLoop op (a + 1) n

/-- External-command and file oracles of `ZFSManager.install_zfs_packages`.
The archzfs key import and the `pacman -Syy` refresh of the fallback path
(lines 218-230) have their failures warned and swallowed with no effect on
control flow, so they are not inputs of the model; likewise the
`pacman.conf` / `mkinitcpio.conf` rewrites only change file contents. -/
structure ZfsPkgEnv where
  headersCmd : Except String Unit
  zfsCmd : Except String Unit
  readPacmanConf : Except String String
  pkgCmd : String → Nat → Except String Unit
  readMkinitcpio : Except String String
  mkinitcpioCmd : Nat → Except String Unit

/-- `ZFSManager.install_zfs_packages` (lines 191-290).  The linux-headers
install (`headersCmd`, lines 194-200) sits in its own `try/except` whose
failure is only warned, so its outcome never influences the result.  The
combined `zfs-dkms zfs-utils` install either succeeds or falls back to the
archzfs path: read `pacman.conf` (an exception here propagates to the outer
catch), then install each package with up to 3 attempts, exhaustion
returning `False`.  Finally read `mkinitcpio.conf` and rebuild the
initramfs with up to 3 attempts. -/
def install_zfs_packages (env : ZfsPkgEnv) : Except String Bool :=
  tryExceptBool (do
    let zfsInstalled : Bool ←
      match env.zfsCmd with
      | .ok _ => pure true
      | .error _ => do
        let _conf ← env.readPacmanConf
        pure (retryLoop (env.pkgCmd "zfs-dkms") 0 3 && retryLoop (env.pkgCmd "zfs-utils") 0 3)
    if zfsInstalled then do
      let _mk ← env.readMkinitcpio
      pure (retryLoop env.mkinitcpioCmd 0 3)
    else pure false)

/-- An oracle where every external operation succeeds except the
linux-headers install. -/
def headersFailEnv : ZfsPkgEnv where
  headersCmd := .error "headers failed"
  zfsCmd := .ok ()
  readPacmanConf := .ok ""
  pkgCmd := fun _ _ => .ok ()
  readMkinitcpio := .ok ""
  mkinitcpioCmd := fun _ => .ok ()

/-- `ZFSManager.configure_bootloader` (lines 292-322): install grub, read
`/etc/default/grub` (the kernel-parameter patch only changes file
contents), run `grub-install` and `grub-mkconfig`; exceptions caught to
`False`. -/
def configure_bootloader (grubPkg : Except String Unit) (readGrub : Except String String)
    (grubInstallCmd : Except String Unit) (grubMkconfigCmd : Except String Unit) :
    Except String Bool :=
  tryExceptBool (do
    let _ ← grubPkg
    let _content ← readGrub
    let _ ← grubInstallCmd
    let _ ← grubMkconfigCmd
    pure true)

/-- The loop of `setup_zfs_system` over the actual step operations: run each
in order, stopping with `False` at the first step returning `False`. -/
def stepChain : List (Except String Bool) → Except String Bool
  | [] => .ok true
  | s :: rest => do
    let ok ← s
    if ok then stepChain rest else pure false

/-- All external oracles of one `ZFSManager.setup_zfs_system` run. -/
structure ZfsEnv where
  cfg : ZfsConfig
  zpoolCreate : Except String CmdResult
  datasetCmd : Nat → Except String Unit
  encryptionWorker : Except String Unit
  swapCmd : Nat → Except String Unit
  mountCmd : Nat → Except String Unit
  bootCmd : Nat → Except String Unit
  pkg : ZfsPkgEnv
  grubPkg : Except String Unit
  readGrubDefault : Except String String
  grubInstallCmd : Except String Unit
  grubMkconfigCmd : Except String Unit

/-- `ZFSManager.setup_zfs_system` (lines 324-352): the eight steps in their
fixed order, each aborting the run when it returns `False`. -/
def setup_zfs_system (env : ZfsEnv) : Except String Bool :=
  stepChain [
    create_pool env.zpoolCreate,
    create_datasets env.datasetCmd,
    setup_encryption env.cfg env.encryptionWorker,
    create_swap env.swapCmd,
    mount_datasets env.mountCmd,
    configure_boot env.bootCmd,
    install_zfs_packages env.pkg,
    configure_bootloader env.grubPkg env.readGrubDefault env.grubInstallCmd env.grubMkconfigCmd]

/-- A twelve-package work list, for the concrete chunking example. -/
def l12 : List String :=
  ["p01", "p02", "p03", "p04", "p05", "p06", "p07", "p08", "p09", "p10", "p11", "p12"]

/-- A batch runner failing exactly on the chunk `["a"]` (chunk index 0 in
the counterexample below). -/
def cexRunB1 : List String → Except String Unit :=
  fun b => if b = ["a"] then .error "boom" else .ok ()

/-- A batch runner failing exactly on the chunk `["b"]` (chunk index 1 in
the counterexample below). -/
def cexRunB2 : List String → Except String Unit :=
  fun b => if b = ["b"] then .error "boom" else .ok ()

/-- A hook that always returns an empty replacement list. -/
def emptyHook : List String → Option (List String) := fun _ => some []

/-- The corrective sync never touches the instance's retry delay. -/
theorem correctiveSync_retryDelay (s : Except String Unit) (st : PacmanState) :
    (correctiveSync s st).retryDelay = st.retryDelay := by
  unfold correctiveSync
  split
  · rfl
  · cases s <;> rfl

/-- C1 — counterexample.  The claim says a non-transient first failure is
never retried (exactly 1 invocation).  "disk full" is rejected by the
transient classifier, yet both retry loops invoke the failing operation 3
times (`max_attempts`), because the `except` branches retry every
exception and consult the classifier only for the corrective resync. -/
theorem nontransient_error_still_retried_cex :
    isTransientMsg "disk full" = false ∧
    (pacmanRun (fun _ => .error "disk full")).invocations = 3 ∧
    (installBatch (fun _ => .error "disk full") (fun _ => .ok ()) pacmanInit).invocations = 3 :=
  ⟨by decide, rfl, rfl⟩

/-- C1 (amended): a failing operation is retried regardless of whether the
error is transient — a permanently failing operation whose errors are all
rejected by the classifier is still invoked once per loop iteration
(`max_attempts` times in total for `pacmanRun`), and the classifier's only
effect is that no corrective resync is attempted. -/
theorem retry_ignores_transience (op : Nat → Except String Unit) (a n d : Nat)
    (hfail : ∀ k, ∃ e, op k = .error e ∧ isTransientMsg e = false) :
    (pacmanRunRetry op a n d).invocations = n ∧
    (pacmanRunRetry op a n d).resyncs = 0 := by
  induction n generalizing a d with
  | zero => exact ⟨rfl, rfl⟩
  | succ m ih =>
    obtain ⟨e, he, ht⟩ := hfail a
    cases m with
    | zero => simp [pacmanRunRetry, he]
    | succ m' =>
      have h2 := ih (a + 1) (d * 2)
      rw [pacmanRunRetry, he]
      simp [ht, h2.1, h2.2]

/-- Witness for `retry_ignores_transience` at the source's hardcoded
parameters (`max_retries = 3`, initial delay 2) and a non-transient error. -/
theorem retry_ignores_transience_witness :
    (pacmanRunRetry (fun _ => .error "disk full") 0 3 2).invocations = 3 ∧
    (pacmanRunRetry (fun _ => .error "disk full") 0 3 2).resyncs = 0 :=
  retry_ignores_transience (fun _ => .error "disk full") 0 3 2
    (fun _ => ⟨"disk full", rfl, by decide⟩)

/-- C2 — counterexample.  The claim says the retry policy is immutable and
shared read-only, so two successive logical calls each start their backoff
at `base_delay = 5`.  But `_install_package_batch` doubles
`self.retry_delay` in place: a first permanently-failing batch sleeps
`[5, 10]` and leaves `retry_delay = 20`, so the second batch on the same
instance sleeps `[20, 40]` instead of starting at 5. -/
theorem backoff_state_persists_cex :
    (installBatch (fun _ => .error "e") (fun _ => .ok ()) pacmanInit).delays = [5, 10] ∧
    (installBatch (fun _ => .error "e") (fun _ => .ok ()) pacmanInit).state.retryDelay = 20 ∧
    (installBatch (fun _ => .error "e") (fun _ => .ok ())
      (installBatch (fun _ => .error "e") (fun _ => .ok ()) pacmanInit).state).delays
        = [20, 40] :=
  ⟨rfl, rfl, rfl⟩

/-- C2 (amended): within one logical `_install_package_batch` call on a
permanently failing operation, the delays slept form the geometric sequence
`d0 * 2^(k-1)` before attempt `k+1` — where `d0` is the instance's
`retry_delay` at the start of that call, not the constructor's base delay —
and the call leaves `retry_delay = d0 * 2^(n-1)` behind on the instance,
which is where the next call sharing the instance starts. -/
theorem batch_backoff_geometric (op syncOp : Nat → Except String Unit) (a n : Nat)
    (st : PacmanState) (hfail : ∀ k, ∃ e, op k = .error e) :
    (installBatchLoop op syncOp a n st).delays = geomDelays st.retryDelay (n - 1) ∧
    (installBatchLoop op syncOp a n st).state.retryDelay = st.retryDelay * 2 ^ (n - 1) ∧
    (∀ d m k, k < m → (geomDelays d m)[k]? = some (d * 2 ^ k)) := by
  have geomSpec : ∀ m d k, k < m → (geomDelays d m)[k]? = some (d * 2 ^ k) := by
    intro m
    induction m with
    | zero => intro d k h; exact absurd h (Nat.not_lt_zero k)
    | succ m' ih =>
      intro d k h
      cases k with
      | zero => simp [geomDelays]
      | succ k' =>
        have h3 := ih (d * 2) k' (by omega)
        simp only [geomDelays, List.getElem?_cons_succ]
        rw [h3]
        congr 1
        ring
  have main : ∀ n a (st : PacmanState),
      (installBatchLoop op syncOp a n st).delays = geomDelays st.retryDelay (n - 1) ∧
      (installBatchLoop op syncOp a n st).state.retryDelay = st.retryDelay * 2 ^ (n - 1) := by
    intro n
    induction n with
    | zero => intro a st; simp [installBatchLoop, geomDelays]
    | succ m ih =>
      intro a st
      obtain ⟨e, he⟩ := hfail a
      cases m with
      | zero => simp [installBatchLoop, he, geomDelays]
      | succ m' =>
        have h2 := ih (a + 1) (correctiveSync (syncOp a) { st with retryDelay := st.retryDelay * 2 })
        rw [correctiveSync_retryDelay] at h2
        rw [installBatchLoop, he]
        refine ⟨?_, ?_⟩
        · simp [h2.1, geomDelays]
        · simp [h2.2]
          ring
  exact ⟨(main n a st).1, (main n a st).2, fun d m k h => geomSpec m d k h⟩

/-- Witness for `batch_backoff_geometric`: a fresh instance
(`retry_delay = 5`) and a permanently failing batch. -/
theorem batch_backoff_geometric_witness :
    (installBatchLoop (fun _ => .error "e") (fun _ => .ok ()) 0 3 pacmanInit).delays
      = geomDelays pacmanInit.retryDelay 2 ∧
    (installBatchLoop (fun _ => .error "e") (fun _ => .ok ()) 0 3 pacmanInit).state.retryDelay
      = pacmanInit.retryDelay * 2 ^ 2 ∧
    (∀ d m k, k < m → (geomDelays d m)[k]? = some (d * 2 ^ k)) :=
  batch_backoff_geometric (fun _ => .error "e") (fun _ => .ok ()) 0 3 pacmanInit
    (fun _ => ⟨"e", rfl⟩)

/-- C3 — counterexample.  The claim says that in a 5-step pipeline whose
step 3 is best-effort and fails, steps 4 and 5 still run and the outcome is
`SUCCEEDED_WITH_WARNINGS` with `best_effort_failures == [step3.name]`.  In
`setup_zfs_system` no step carries a failure mode: when step 3 fails the
run stops there — the invoked-step trace is exactly
`["step1", "step2", "step3"]`, steps 4 and 5 are never invoked, and the
outcome is a plain failure naming step 3 (there is no warnings outcome and
no recorded failure list). -/
theorem pipeline_no_best_effort_cex :
    runSteps [⟨"step1", true⟩, ⟨"step2", true⟩, ⟨"step3", false⟩, ⟨"step4", true⟩,
        ⟨"step5", true⟩]
      = (["step1", "step2", "step3"], some "step3") :=
  rfl

/-- C3 (amended): `setup_zfs_system` treats every step as hard-fail — the
pipeline succeeds exactly when every step succeeds, so a failing step never
leads to a with-warnings success.  Best-effort tolerance exists only inside
the `install_zfs_packages` step: the linux-headers install failure is
warned and ignored, leaving the step's result unchanged, and with every
other command succeeding the step still returns `True`. -/
theorem pipeline_all_steps_hard :
    (∀ steps, (runSteps steps).2 = none ↔ ∀ s ∈ steps, s.ok = true) ∧
    (∀ env : ZfsPkgEnv, ∀ e, install_zfs_packages { env with headersCmd := .error e }
        = install_zfs_packages { env with headersCmd := .ok () }) ∧
    install_zfs_packages headersFailEnv = .ok true := by
  refine ⟨?_, fun env e => rfl, rfl⟩
  intro steps
  induction steps with
  | nil => simp [runSteps]
  | cons s rest ih =>
    by_cases h : s.ok
    · simp [runSteps, h, ih]
    · simp only [runSteps, if_neg h]
      constructor
      · intro hnone; exact absurd hnone (by simp)
      · intro hall; exact absurd (hall s (by simp)) h

/-- Witness for `pipeline_all_steps_hard`: a one-step pipeline whose step
succeeds yields no recorded failure. -/
theorem pipeline_all_steps_hard_witness :
    (runSteps [⟨"create_pool", true⟩]).2 = none :=
  (pipeline_all_steps_hard.1 [⟨"create_pool", true⟩]).mpr (by simp)

/-- C4: when a step fails after a prefix of succeeding steps, the pipeline
invokes exactly the prefix and the failing step, records the failing step's
name in its failure outcome, and never invokes any later step (the invoked
trace is the first component of `runSteps`). -/
theorem hard_step_aborts_pipeline (pre : List ZfsStep) (s : ZfsStep) (post : List ZfsStep)
    (hpre : ∀ t ∈ pre, t.ok = true) (hs : s.ok = false) :
    runSteps (pre ++ s :: post) = (pre.map ZfsStep.name ++ [s.name], some s.name) := by
  induction pre with
  | nil => simp [runSteps, hs]
  | cons t rest ih =>
    have ht : t.ok = true := hpre t (by simp)
    simp [runSteps, ht, ih (fun x hx => hpre x (by simp [hx]))]

/-- Witness for `hard_step_aborts_pipeline`: 5 steps, step 2 failing —
steps 3-5 never run, the outcome records step 2's name. -/
theorem hard_step_aborts_pipeline_witness :
    runSteps [⟨"step1", true⟩, ⟨"step2", false⟩, ⟨"step3", true⟩, ⟨"step4", true⟩,
        ⟨"step5", true⟩]
      = (["step1", "step2"], some "step2") :=
  hard_step_aborts_pipeline [⟨"step1", true⟩] ⟨"step2", false⟩
    [⟨"step3", true⟩, ⟨"step4", true⟩, ⟨"step5", true⟩]
    (by intro t ht; rw [List.mem_singleton] at ht; subst ht; rfl) rfl

/-- C5 — counterexample.  The claim says the failure reported by the batch
loop carries the 0-based index of the failed chunk.  In `strap` the loop
just lets the exception propagate: a run failing at chunk index 0 and a run
failing at chunk index 1 report the identical failure value
`.error "boom"`, so the reported failure cannot carry the chunk index (no
`failedBatchIndex` exists); the attempted-batch traces show the failing
indices really are 0 and 1. -/
theorem batch_failure_carries_no_index_cex :
    (strapBatches cexRunB1 [["a"], ["b"], ["c"]]).1 = .error "boom" ∧
    (strapBatches cexRunB2 [["a"], ["b"], ["c"]]).1 = .error "boom" ∧
    (strapBatches cexRunB1 [["a"], ["b"], ["c"]]).2 = [["a"]] ∧
    (strapBatches cexRunB2 [["a"], ["b"], ["c"]]).2 = [["a"], ["b"]] :=
  ⟨rfl, rfl, rfl, rfl⟩

/-- C5 (amended): when a chunk exhausts its retries (its
`_install_package_batch` call raises), execution stops immediately — the
attempted chunks are exactly the succeeding prefix plus the failing chunk,
no later chunk is ever attempted — and the underlying error propagates
unchanged as the failure, with no chunk index attached. -/
theorem strap_stops_at_first_failed_batch (runB : List String → Except String Unit)
    (pre : List (List String)) (b : List String) (post : List (List String)) (e : String)
    (hpre : ∀ c ∈ pre, runB c = .ok ()) (hb : runB b = .error e) :
    strapBatches runB (pre ++ b :: post) = (.error e, pre ++ [b]) := by
  induction pre with
  | nil => simp [strapBatches, hb]
  | cons c rest ih =>
    have hc := hpre c (by simp)
    simp [strapBatches, hc, ih (fun x hx => hpre x (by simp [hx]))]

/-- Witness for `strap_stops_at_first_failed_batch`: chunk 2 of 3 fails;
chunk 3 is never attempted and the raw error propagates. -/
theorem strap_stops_at_first_failed_batch_witness :
    strapBatches cexRunB2 [["a"], ["b"], ["c"]] = (.error "boom", [["a"], ["b"]]) :=
  strap_stops_at_first_failed_batch cexRunB2 [["a"]] ["b"] [["c"]] "boom"
    (by intro c hc; rw [List.mem_singleton] at hc; subst hc; rfl) rfl

/-- Joining the chunks gives back the original list (order preserved,
nothing lost), provided the batch size is at least 1 and the fuel covers
the list. -/
theorem chunksFuel_flatten (bs : Nat) (hbs : 1 ≤ bs) :
    ∀ fuel (l : List α), l.length ≤ fuel → (chunksFuel bs fuel l).flatten = l := by
  intro fuel
  induction fuel with
  | zero =>
    intro l h
    cases l with
    | nil => rfl
    | cons x xs => simp at h
  | succ f ih =>
    intro l h
    cases l with
    | nil => rfl
    | cons x xs =>
      have hd : ((x :: xs).drop bs).length ≤ f := by
        rw [List.length_drop]
        simp at h ⊢
        omega
      simp [chunksFuel, ih _ hd]

/-- Chunk `k` is exactly the slice `l[k*bs : k*bs + bs]`. -/
theorem chunksFuel_getElem (bs : Nat) (hbs : 1 ≤ bs) :
    ∀ fuel (l : List α) k, l.length ≤ fuel → k < (chunksFuel bs fuel l).length →
      (chunksFuel bs fuel l)[k]? = some ((l.drop (k * bs)).take bs) := by
  intro fuel
  induction fuel with
  | zero =>
    intro l k h hk
    cases l with
    | nil => simp [chunksFuel] at hk
    | cons x xs => simp at h
  | succ f ih =>
    intro l k h hk
    cases l with
    | nil => simp [chunksFuel] at hk
    | cons x xs =>
      have hd : ((x :: xs).drop bs).length ≤ f := by
        rw [List.length_drop]
        simp at h ⊢
        omega
      cases k with
      | zero => simp [chunksFuel]
      | succ k' =>
        have hk' : k' < (chunksFuel bs f ((x :: xs).drop bs)).length := by
          simp [chunksFuel] at hk
          omega
        have h2 := ih ((x :: xs).drop bs) k' hd hk'
        simp only [chunksFuel, List.getElem?_cons_succ]
        rw [h2, List.drop_drop]
        congr 3
        ring

/-- Every chunk except possibly the last has exactly `bs` elements. -/
theorem chunksFuel_full_size (bs : Nat) (hbs : 1 ≤ bs) :
    ∀ fuel (l : List α) k, l.length ≤ fuel → k + 1 < (chunksFuel bs fuel l).length →
      ((chunksFuel bs fuel l)[k]?).map List.length = some bs := by
  intro fuel
  induction fuel with
  | zero =>
    intro l k h hk
    cases l with
    | nil => simp [chunksFuel] at hk
    | cons x xs => simp at h
  | succ f ih =>
    intro l k h hk
    cases l with
    | nil => simp [chunksFuel] at hk
    | cons x xs =>
      have hd : ((x :: xs).drop bs).length ≤ f := by
        rw [List.length_drop]
        simp at h ⊢
        omega
      cases k with
      | zero =>
        have hne : (x :: xs).drop bs ≠ [] := by
          intro hnil
          simp [chunksFuel, hnil] at hk
          cases f <;> simp [chunksFuel] at hk
        have hlen : bs < (x :: xs).length := by
          by_contra hle
          exact hne (List.drop_eq_nil_of_le (by omega))
        simp only [List.length_cons] at hlen
        simp [chunksFuel, List.length_take]
        omega
      | succ k' =>
        have hk' : k' + 1 < (chunksFuel bs f ((x :: xs).drop bs)).length := by
          simp [chunksFuel] at hk
          omega
        have h2 := ih ((x :: xs).drop bs) k' hd hk'
        simpa [chunksFuel, List.getElem?_cons_succ] using h2

/-- C6: `strap`'s batch loop partitions the package list into consecutive,
order-preserving chunks — joining them restores the list, chunk `k` is the
slice `[k*bs, min((k+1)*bs, len))`, and every chunk but the last has
exactly `bs` elements. -/
theorem strap_chunking {α : Type} (bs : Nat) (l : List α) (hbs : 1 ≤ bs) :
    (chunks bs l).flatten = l ∧
    (∀ k, k < (chunks bs l).length → (chunks bs l)[k]? = some ((l.drop (k * bs)).take bs)) ∧
    (∀ k, k + 1 < (chunks bs l).length → ((chunks bs l)[k]?).map List.length = some bs) :=
  ⟨chunksFuel_flatten bs hbs l.length l le_rfl,
   fun k hk => chunksFuel_getElem bs hbs l.length l k le_rfl hk,
   fun k hk => chunksFuel_full_size bs hbs l.length l k le_rfl hk⟩

/-- Witness for `strap_chunking`, at the source's `batch_size = 5` and a
twelve-element work list: the chunks are the slices `[0,5)`, `[5,10)`,
`[10,12)`, in that order. -/
theorem strap_chunking_witness :
    ((chunks 5 l12).flatten = l12 ∧
      (∀ k, k < (chunks 5 l12).length →
        (chunks 5 l12)[k]? = some ((l12.drop (k * 5)).take 5)) ∧
      (∀ k, k + 1 < (chunks 5 l12).length →
        ((chunks 5 l12)[k]?).map List.length = some 5)) ∧
    chunks 5 l12 = [["p01", "p02", "p03", "p04", "p05"],
      ["p06", "p07", "p08", "p09", "p10"], ["p11", "p12"]] :=
  ⟨strap_chunking 5 l12 (by decide), rfl⟩

/-- If the lock is reported present at every poll, the wait loop exits
fatally with status 1 as soon as a post-sleep clock reading exceeds the
10-minute budget (within the given fuel). -/
theorem lockWaitGo_fatal (lockExists : Nat → Bool) (clock : Nat → Nat) (started : Nat)
    (hlock : ∀ m, lockExists m = true) :
    ∀ fuel n, (∃ k, k < fuel ∧ clock (n + 1 + k) > started + 600000) →
      lockWaitGo lockExists clock started fuel n = .fatalExit 1 := by
  intro fuel
  induction fuel with
  | zero =>
    rintro n ⟨k, hk, _⟩
    exact absurd hk (Nat.not_lt_zero k)
  | succ f ih =>
    rintro n ⟨k, hk, hc⟩
    rw [lockWaitGo, hlock n]
    by_cases h : clock (n + 1) > started + 600000
    · simp [h]
    · have hk0 : k ≠ 0 := by
        intro h0
        subst h0
        simp at hc
        omega
      obtain ⟨k', rfl⟩ := Nat.exists_eq_succ_of_ne_zero hk0
      have hc' : clock (n + 1 + 1 + k') > started + 600000 := by
        have : n + 1 + (k' + 1) = n + 1 + 1 + k' := by omega
        rwa [this] at hc
      simp only [if_pos rfl, if_neg h]
      exact ih (n + 1) ⟨k', by omega, hc'⟩

/-- C7 (amended): the lock wait returns immediately (zero polls of waiting)
when the resource is absent on entry; and when the resource is never freed,
once elapsed time exceeds the 10-minute budget the wait fails fatally — it
logs a fixed message and exits the process with status 1.  The failure
value does not carry the elapsed duration. -/
theorem lock_coordinator_wait (lockExists : Nat → Bool) (clock : Nat → Nat) (fuel : Nat) :
    (lockExists 0 = false → 1 ≤ fuel → lockWait lockExists clock fuel = .ok 0) ∧
    ((∀ m, lockExists m = true) →
      (∃ k, k < fuel ∧ clock (1 + k) > clock 0 + 600000) →
      lockWait lockExists clock fuel = .fatalExit 1) := by
  constructor
  · intro h0 hf
    obtain ⟨f, rfl⟩ := Nat.exists_eq_succ_of_ne_zero (by omega : fuel ≠ 0)
    simp [lockWait, lockWaitGo, h0]
  · intro hlock hex
    exact lockWaitGo_fatal lockExists clock (clock 0) hlock fuel 0 (by simpa using hex)

/-- Witness for `lock_coordinator_wait`: a lock absent on entry returns at
poll 0; a lock never freed under a 250 ms-per-poll clock exits fatally
after poll 2400 (elapsed 600.25 s > 600 s). -/
theorem lock_coordinator_wait_witness :
    lockWait (fun _ => false) (fun n => 250 * n) 10 = .ok 0 ∧
    lockWait (fun _ => true) (fun n => 250 * n) 2500 = .fatalExit 1 :=
  ⟨(lock_coordinator_wait (fun _ => false) (fun n => 250 * n) 10).1 rfl (by omega),
   (lock_coordinator_wait (fun _ => true) (fun n => 250 * n) 2500).2 (fun _ => rfl)
     ⟨2400, by omega, by norm_num⟩⟩

/-- C7 — counterexample.  The claim says the timeout failure carries the
elapsed duration.  Two never-freed runs that exit with different elapsed
times — 600250 ms under a 250 ms-per-poll clock (exit after poll 2400) and
700000 ms under a clock that jumps 700 s during the first sleep (exit after
poll 0) — produce the identical failure value `.fatalExit 1` (the logged
message is a fixed string), so the failure cannot carry the elapsed
duration. -/
theorem lock_timeout_no_elapsed_cex :
    lockWait (fun _ => true) (fun n => 250 * n) 2500 = .fatalExit 1 ∧
    lockWait (fun _ => true) (fun n => 700000 * n) 2500 = .fatalExit 1 ∧
    250 * (1 + 2400) ≠ 700000 * (0 + 1) := by
  refine ⟨?_, ?_, by norm_num⟩
  · exact lockWaitGo_fatal _ _ _ (fun _ => rfl) 2500 0 ⟨2400, by omega, by norm_num⟩
  · exact lockWaitGo_fatal _ _ _ (fun _ => rfl) 2500 0 ⟨0, by omega, by norm_num⟩

/-- C8: the plugin interception of `strap` folds the registered hooks over
the package list in registration order (unfolding one registration step at
a time); an empty registry is the identity, and hooks that return `None` or
an empty replacement leave the list unchanged. -/
theorem hook_interceptor_apply (hooks : List (List String → Option (List String)))
    (l : List String) :
    applyHooks [] l = l ∧
    ((∀ h ∈ hooks, ∀ xs, h xs = none ∨ h xs = some []) → applyHooks hooks l = l) ∧
    (∀ h rest l2, applyHooks (h :: rest) l2 = applyHooks rest (hookStep l2 h)) := by
  have aux : ∀ hs : List (List String → Option (List String)),
      (∀ h ∈ hs, ∀ xs, h xs = none ∨ h xs = some []) → ∀ l2, applyHooks hs l2 = l2 := by
    intro hs
    induction hs with
    | nil => intro _ l2; rfl
    | cons h rest ih =>
      intro hall l2
      have hstep : hookStep l2 h = l2 := by
        rcases hall h (by simp) l2 with h1 | h1 <;> simp [hookStep, h1]
      show applyHooks rest (hookStep l2 h) = l2
      rw [hstep]
      exact ih (fun g hg xs => hall g (by simp [hg]) xs) l2
  exact ⟨rfl, fun hall => aux hooks hall l, fun h rest l2 => rfl⟩

/-- Witness for `hook_interceptor_apply`: empty registry is the identity on
a concrete list, and a hook returning an empty replacement is a no-op. -/
theorem hook_interceptor_apply_witness :
    applyHooks [] ["base", "linux"] = ["base", "linux"] ∧
    applyHooks [emptyHook] ["base", "linux"] = ["base", "linux"] :=
  ⟨(hook_interceptor_apply [emptyHook] ["base", "linux"]).1,
   (hook_interceptor_apply [emptyHook] ["base", "linux"]).2.1
     (fun h hh xs => by rw [List.mem_singleton] at hh; subst hh; exact Or.inr rfl)⟩

/-- C9: `Pacman.sync` is idempotent per instance — once `self.synced` is
set, every further `sync` call (also the ones `strap` and the corrective
path issue) returns immediately with the state unchanged and zero external
invocations; `synced` is only set after a sync that succeeded; and any
sequence of further calls on a synced instance performs zero external
synchronizations in total. -/
theorem sync_idempotent (c : Nat → Except String Unit) (u : Nat → Bool) (fuel : Nat)
    (st : PacmanState) :
    (st.synced = true → syncFull c u fuel st = (.ok (), st, 0)) ∧
    (∀ r st' n, syncFull c u fuel st = (r, st', n) → r = .ok () → st'.synced = true) ∧
    (∀ calls, st.synced = true → (syncCalls calls st).2 = 0) := by
  refine ⟨?_, ?_, ?_⟩
  · intro h
    simp [syncFull, h]
  · intro r st' n heq hok
    subst hok
    by_cases h : st.synced
    · unfold syncFull at heq
      rw [if_pos h] at heq
      simp only [Prod.mk.injEq] at heq
      obtain ⟨-, h2, -⟩ := heq
      rw [← h2]
      exact h
    · unfold syncFull at heq
      rw [if_neg h] at heq
      dsimp only at heq
      split at heq
      · simp only [Prod.mk.injEq] at heq
        obtain ⟨-, h2, -⟩ := heq
        rw [← h2]
      · simp only [Prod.mk.injEq] at heq
        exact absurd heq.1 (by simp)
  · intro calls h
    induction calls with
    | nil => rfl
    | cons a rest ih =>
      simp only [syncCalls, syncFull, h, if_pos]
      simpa using ih

/-- Witness for `sync_idempotent`: a synced instance replies `Ok` at once,
unchanged, with zero external invocations. -/
theorem sync_idempotent_witness :
    syncFull (fun _ => .ok ()) (fun _ => false) 1 ⟨true, false, 5⟩
      = (.ok (), ⟨true, false, 5⟩, 0) :=
  (sync_idempotent (fun _ => .ok ()) (fun _ => false) 1 ⟨true, false, 5⟩).1 rfl

/-- The catch-all wrapper turns any outcome into a normal boolean return. -/
theorem tryExceptBool_ok (body : Except String Bool) : ∃ b, tryExceptBool body = .ok b := by
  cases body with
  | ok b => exact ⟨b, rfl⟩
  | error e => exact ⟨false, rfl⟩

/-- `setup_encryption` returns a boolean on every path. -/
theorem setup_encryption_ok (cfg : ZfsConfig) (worker : Except String Unit) :
    ∃ b, setup_encryption cfg worker = .ok b := by
  unfold setup_encryption
  split
  · exact ⟨true, rfl⟩
  · exact tryExceptBool_ok _

/-- A chain of non-raising steps never raises. -/
theorem stepChain_ok : ∀ ss : List (Except String Bool),
    (∀ s ∈ ss, ∃ b, s = .ok b) → ∃ b, stepChain ss = .ok b := by
  intro ss
  induction ss with
  | nil => intro _; exact ⟨true, rfl⟩
  | cons s rest ih =>
    intro hall
    obtain ⟨b, hb⟩ := hall s (by simp)
    cases b
    · exact ⟨false, by rw [stepChain, hb]; rfl⟩
    · obtain ⟨b', hb'⟩ := ih (fun x hx => hall x (by simp [hx]))
      exact ⟨b', by rw [stepChain, hb]; exact hb'⟩

/-- C10: every public `ZFSManager` operation returns a boolean and never
propagates an exception — whatever the outcomes of the underlying commands
and file accesses, each operation (and the whole `setup_zfs_system`
pipeline) evaluates to `.ok b` for some boolean `b`, never to `.error`. -/
theorem zfs_ops_never_raise (env : ZfsEnv) :
    (∃ b, create_pool env.zpoolCreate = .ok b) ∧
    (∃ b, create_datasets env.datasetCmd = .ok b) ∧
    (∃ b, setup_encryption env.cfg env.encryptionWorker = .ok b) ∧
    (∃ b, create_swap env.swapCmd = .ok b) ∧
    (∃ b, mount_datasets env.mountCmd = .ok b) ∧
    (∃ b, configure_boot env.bootCmd = .ok b) ∧
    (∃ b, install_zfs_packages env.pkg = .ok b) ∧
    (∃ b, configure_bootloader env.grubPkg env.readGrubDefault env.grubInstallCmd
        env.grubMkconfigCmd = .ok b) ∧
    (∃ b, setup_zfs_system env = .ok b) := by
  have h1 : ∃ b, create_pool env.zpoolCreate = .ok b := tryExceptBool_ok _
  have h2 : ∃ b, create_datasets env.datasetCmd = .ok b := tryExceptBool_ok _
  have h3 := setup_encryption_ok env.cfg env.encryptionWorker
  have h4 : ∃ b, create_swap env.swapCmd = .ok b := tryExceptBool_ok _
  have h5 : ∃ b, mount_datasets env.mountCmd = .ok b := tryExceptBool_ok _
  have h6 : ∃ b, configure_boot env.bootCmd = .ok b := tryExceptBool_ok _
  have h7 : ∃ b, install_zfs_packages env.pkg = .ok b := tryExceptBool_ok _
  have h8 : ∃ b, configure_bootloader env.grubPkg env.readGrubDefault env.grubInstallCmd
      env.grubMkconfigCmd = .ok b := tryExceptBool_ok _
  refine ⟨h1, h2, h3, h4, h5, h6, h7, h8, ?_⟩
  apply stepChain_ok
  intro s hs
  simp only [List.mem_cons, List.not_mem_nil, or_false] at hs
  rcases hs with rfl | rfl | rfl | rfl | rfl | rfl | rfl | rfl
  exacts [h1, h2, h3, h4, h5, h6, h7, h8]
